import Mathlib

/-!
Shallow embedding of the sprite-atlas packing core of the repository
(src/packer.ts, class GridPacker) and of the stable-order manifest
reconciliation (src/generator.ts, reorderSpritesFromManifest), together
with theorems settling the specification claims about them.

Numbers: all quantities in the source are nonnegative integers (pixel
sizes, coordinates, counts); JavaScript number arithmetic on them is
exact, so they are modelled as Nat.  JavaScript Array.prototype.sort is
a stable sort driven by a comparator; it is modelled by the stable
List.insertionSort with the relation (comparator a b ≤ 0).  A thrown
capacity error is modelled by Option.none.
-/

namespace SpriteAtlas

/-- Model of the SpriteInfo input record: key, width, height, and the
opaque payload (path, pixel buffer) that the packer never inspects. -/
structure SpriteInfo (α : Type) where
  key : String
  width : Nat
  height : Nat
  payload : α
deriving DecidableEq, Repr

/-- Grid metadata attached to a placement in fixed-grid mode:
gridX, gridY, gridCellsWide, gridCellsHigh from packer.ts lines 178-181. -/
structure GridInfo where
  gridX : Nat
  gridY : Nat
  gridCellsWide : Nat
  gridCellsHigh : Nat
deriving DecidableEq, Repr

/-- Model of SpritePlacement: the spread of the input sprite plus the
assigned coordinates; the grid fields are present exactly in fixed-grid
mode, modelled by an Option. -/
structure SpritePlacement (α : Type) where
  key : String
  width : Nat
  height : Nat
  payload : α
  x : Nat
  y : Nat
  grid : Option GridInfo
deriving DecidableEq, Repr

/-- Result record of GridPacker.pack: placements plus final canvas size. -/
structure PackResult (α : Type) where
  placements : List (SpritePlacement α)
  width : Nat
  height : Nat
deriving DecidableEq, Repr

/-- Constructor parameters of GridPacker (packer.ts line 20): padding,
maxSize, optional gridSize, stableOrder flag. -/
structure PackerConfig where
  padding : Nat
  maxSize : Nat
  gridSize : Option Nat
  stableOrder : Bool
deriving DecidableEq, Repr

/-- Forgetful projection from a placement back to the sprite data it
carries (the fields of SpriteInfo spread into the placement). -/
def spriteOf (p : SpritePlacement α) : SpriteInfo α :=
  ⟨p.key, p.width, p.height, p.payload⟩

/-- Bounded doubling search: starting from acc, double until n ≤ acc.
The fuel argument makes the recursion structural; fuel = n suffices
because 2 ^ n ≥ n. -/
def nextPow2Loop (n : Nat) : Nat → Nat → Nat
  | 0, acc => acc
  | fuel + 1, acc => if n ≤ acc then acc else nextPow2Loop n fuel (acc * 2)

/-- Model of nextPowerOf2 (packer.ts line 6): 2 ^ ceil(log2 n), i.e. the
least power of two that is ≥ n; JavaScript evaluates it to 0 at n = 0
(Math.log2 0 is minus infinity). -/
def nextPowerOf2 (n : Nat) : Nat :=
  if n = 0 then 0 else nextPow2Loop n n 1

/-- Generic placement loop: fold a fallible step over the sprite list,
aborting on the first error, as the for-loop with throw does. -/
def packLoop (step : σ → τ → Option σ) : σ → List τ → Option σ
  | st, [] => some st
  | st, t :: ts =>
    match step st t with
    | none => none
    | some st1 => packLoop step st1 ts

/-- Mutable state of the row-based packing loop (packer.ts lines 66-71). -/
structure RowState (α : Type) where
  placements : List (SpritePlacement α)
  currentX : Nat
  currentY : Nat
  rowHeight : Nat
  maxWidth : Nat
  maxHeight : Nat
deriving DecidableEq, Repr

/-- Placement body of the row loop (packer.ts lines 93-106), given the
cursor position cx, cy and row height rh that are current after the
optional row wrap. -/
def rowPlace (cfg : PackerConfig) (st : RowState α) (sp : SpriteInfo α)
    (cx cy rh : Nat) : RowState α :=
  { placements := st.placements ++ [⟨sp.key, sp.width, sp.height, sp.payload, cx, cy, none⟩]
    currentX := cx + (sp.width + cfg.padding)
    currentY := cy
    rowHeight := max rh (sp.height + cfg.padding)
    maxWidth := max st.maxWidth (cx + sp.width + cfg.padding)
    maxHeight := max st.maxHeight (cy + sp.height + cfg.padding) }

/-- One iteration of the row-based loop (packer.ts lines 73-107): wrap to
a new row when the sprite would overflow maxSize horizontally, and only
then check the vertical capacity. -/
def rowStep (cfg : PackerConfig) (st : RowState α) (sp : SpriteInfo α) :
    Option (RowState α) :=
  if st.currentX + (sp.width + cfg.padding) > cfg.maxSize then
    if st.currentY + st.rowHeight + (sp.height + cfg.padding) > cfg.maxSize then
      none
    else
      some (rowPlace cfg st sp cfg.padding (st.currentY + st.rowHeight) 0)
  else
    some (rowPlace cfg st sp st.currentX st.currentY st.rowHeight)

/-- Sort relation of the row strategy (packer.ts lines 59-64):
alphabetical by key under stableOrder, otherwise descending height;
comparator c(a,b) ≤ 0 becomes the relation of the stable sort. -/
def rowRel (cfg : PackerConfig) (a b : SpriteInfo α) : Prop :=
  if cfg.stableOrder then a.key ≤ b.key else b.height ≤ a.height

instance (cfg : PackerConfig) : DecidableRel (rowRel (α := α) cfg) := by
  intro a b
  unfold rowRel
  infer_instance

/-- Sorted sprite list of the row strategy. -/
def rowSorted (cfg : PackerConfig) (sprites : List (SpriteInfo α)) :
    List (SpriteInfo α) :=
  List.insertionSort (rowRel cfg) sprites

/-- Model of packRowBased (packer.ts lines 52-118). -/
def packRowBased (cfg : PackerConfig) (sprites : List (SpriteInfo α)) :
    Option (PackResult α) :=
  match packLoop (rowStep cfg) ⟨[], cfg.padding, cfg.padding, 0, 0, 0⟩
      (rowSorted cfg sprites) with
  | none => none
  | some st =>
    some ⟨st.placements,
      min (nextPowerOf2 st.maxWidth) cfg.maxSize,
      min (nextPowerOf2 st.maxHeight) cfg.maxSize⟩

/-- Cell count of a sprite extent in fixed-grid mode: Math.ceil of
(n + padding) / g, written with Nat arithmetic (g > 0 in grid mode). -/
def cellCount (pad g n : Nat) : Nat :=
  (n + pad + g - 1) / g

/-- Mutable state of the fixed-grid packing loop (packer.ts lines 139-144). -/
structure GridState (α : Type) where
  placements : List (SpritePlacement α)
  currentX : Nat
  currentY : Nat
  rowHeight : Nat
  maxWidth : Nat
  maxHeight : Nat
deriving DecidableEq, Repr

/-- Placement body of the fixed-grid loop (packer.ts lines 170-190): the
sprite is centered inside its cell box at cursor cx, cy. -/
def gridPlace (cfg : PackerConfig) (g : Nat) (st : GridState α)
    (sp : SpriteInfo α) (cx cy rh : Nat) : GridState α :=
  let cellsWide := cellCount cfg.padding g sp.width
  let cellsHigh := cellCount cfg.padding g sp.height
  let cellWidth := cellsWide * g
  let cellHeight := cellsHigh * g
  { placements := st.placements ++
      [⟨sp.key, sp.width, sp.height, sp.payload,
        cx + (cellWidth - sp.width) / 2,
        cy + (cellHeight - sp.height) / 2,
        some ⟨cx / g, cy / g, cellsWide, cellsHigh⟩⟩]
    currentX := cx + cellWidth
    currentY := cy
    rowHeight := max rh cellHeight
    maxWidth := max st.maxWidth (cx + cellWidth)
    maxHeight := max st.maxHeight (cy + cellHeight) }

/-- One iteration of the fixed-grid loop (packer.ts lines 146-191). -/
def gridStep (cfg : PackerConfig) (g : Nat) (st : GridState α)
    (sp : SpriteInfo α) : Option (GridState α) :=
  let cellWidth := cellCount cfg.padding g sp.width * g
  let cellHeight := cellCount cfg.padding g sp.height * g
  if st.currentX + cellWidth > cfg.maxSize then
    if st.currentY + st.rowHeight + cellHeight > cfg.maxSize then
      none
    else
      some (gridPlace cfg g st sp 0 (st.currentY + st.rowHeight) 0)
  else
    some (gridPlace cfg g st sp st.currentX st.currentY st.rowHeight)

/-- Sort relation of the fixed-grid strategy (packer.ts lines 132-137):
alphabetical under stableOrder, otherwise descending area. -/
def gridRel (cfg : PackerConfig) (a b : SpriteInfo α) : Prop :=
  if cfg.stableOrder then a.key ≤ b.key else b.width * b.height ≤ a.width * a.height

instance (cfg : PackerConfig) : DecidableRel (gridRel (α := α) cfg) := by
  intro a b
  unfold gridRel
  infer_instance

/-- Sorted sprite list of the fixed-grid strategy. -/
def gridSorted (cfg : PackerConfig) (sprites : List (SpriteInfo α)) :
    List (SpriteInfo α) :=
  List.insertionSort (gridRel cfg) sprites

/-- Model of packFixedGrid (packer.ts lines 124-204); the final
dimensions are rounded up to the grid, then to a power of two, then
clamped to maxSize. -/
def packFixedGrid (cfg : PackerConfig) (g : Nat)
    (sprites : List (SpriteInfo α)) : Option (PackResult α) :=
  match packLoop (gridStep cfg g) ⟨[], 0, 0, 0, 0, 0⟩ (gridSorted cfg sprites) with
  | none => none
  | some st =>
    some ⟨st.placements,
      min (nextPowerOf2 ((st.maxWidth + g - 1) / g * g)) cfg.maxSize,
      min (nextPowerOf2 ((st.maxHeight + g - 1) / g * g)) cfg.maxSize⟩

/-- Model of GridPacker.pack (packer.ts lines 31-47): empty input short
circuits; a truthy gridSize (present and nonzero) selects the fixed-grid
strategy, otherwise the row strategy runs. -/
def pack (cfg : PackerConfig) (sprites : List (SpriteInfo α)) :
    Option (PackResult α) :=
  if sprites.isEmpty then
    some ⟨[], 0, 0⟩
  else
    match cfg.gridSize with
    | some g => if g = 0 then packRowBased cfg sprites else packFixedGrid cfg g sprites
    | none => packRowBased cfg sprites

/-- Model of calculateRequiredArea (packer.ts lines 209-215). -/
def calculateRequiredArea (cfg : PackerConfig)
    (sprites : List (SpriteInfo α)) : Nat :=
  sprites.foldl (fun total sp => total + (sp.width + cfg.padding) * (sp.height + cfg.padding)) 0

/-- Model of canFit (packer.ts lines 220-237). -/
def canFit (cfg : PackerConfig) (sprites : List (SpriteInfo α)) : Bool :=
  if calculateRequiredArea cfg sprites > cfg.maxSize * cfg.maxSize then
    false
  else if sprites.any (fun sp => cfg.maxSize < sp.width || cfg.maxSize < sp.height) then
    false
  else
    true

/-- Alphabetical sort by key (localeCompare of distinct ASCII keys is
modelled by the String order). -/
def sortByKey (sprites : List (SpriteInfo α)) : List (SpriteInfo α) :=
  List.insertionSort (fun a b => a.key ≤ b.key) sprites

instance : DecidableRel (fun (a b : SpriteInfo α) => a.key ≤ b.key) := by
  intro a b
  infer_instance

/-- Lookup modelling the Map built by successive set calls in
reorderSpritesFromManifest: the last sprite with the key wins. -/
def lookupSprite (sprites : List (SpriteInfo α)) (k : String) :
    Option (SpriteInfo α) :=
  sprites.reverse.find? (fun s => s.key == k)

/-- Model of reorderSpritesFromManifest (generator.ts lines 622-673); the
manifest argument is its spriteOrder key list, none when no manifest
file exists.  Sprites found in the manifest come first in manifest
order, then the remaining sprites sorted by key; manifest keys with no
current sprite are dropped. -/
def reorderSpritesFromManifest (sprites : List (SpriteInfo α))
    (manifest : Option (List String)) : List (SpriteInfo α) :=
  match manifest with
  | none => sortByKey sprites
  | some order =>
    if order.isEmpty then
      sortByKey sprites
    else
      let fromManifest := order.filterMap (lookupSprite sprites)
      let remainingKeys :=
        ((sprites.map (fun s => s.key)).dedup).filter (fun k => !(order.contains k))
      fromManifest ++ sortByKey (remainingKeys.filterMap (lookupSprite sprites))

/-- Truthiness of the gridSize field, deciding which strategy pack runs
(JavaScript treats an absent or zero gridSize as falsy). -/
def usesGrid (cfg : PackerConfig) : Bool :=
  match cfg.gridSize with
  | some g => decide (g ≠ 0)
  | none => false

/-- Membership of the integer point (i, j) in the padded bounding box
[x, x + width + pad) × [y, y + height + pad) of a placement. -/
def inPaddedBox (pad : Nat) (p : SpritePlacement α) (i j : Nat) : Prop :=
  p.x ≤ i ∧ i < p.x + p.width + pad ∧ p.y ≤ j ∧ j < p.y + p.height + pad

/-- Right edge of the padded bounding box of a placement. -/
def xExtent (pad : Nat) (p : SpritePlacement α) : Nat :=
  p.x + p.width + pad

/-- Bottom edge of the padded bounding box of a placement. -/
def yExtent (pad : Nat) (p : SpritePlacement α) : Nat :=
  p.y + p.height + pad

/-- Two placements whose padded bounding boxes share no integer point. -/
def noOverlap (pad : Nat) (p q : SpritePlacement α) : Prop :=
  ∀ i j : Nat, ¬ (inPaddedBox pad p i j ∧ inPaddedBox pad q i j)

/-- Maximum of a list of naturals (0 for the empty list). -/
def listMax : List Nat → Nat
  | [] => 0
  | a :: l => max a (listMax l)

/-- Right edge of the cell box a grid placement occupies (0 when the
placement carries no grid data, which the loop invariant rules out). -/
def cellRight (g : Nat) (p : SpritePlacement α) : Nat :=
  match p.grid with
  | some gi => (gi.gridX + gi.gridCellsWide) * g
  | none => 0

/-- Bottom edge of the cell box a grid placement occupies. -/
def cellBottom (g : Nat) (p : SpritePlacement α) : Nat :=
  match p.grid with
  | some gi => (gi.gridY + gi.gridCellsHigh) * g
  | none => 0

/-- Loop invariant of packRowBased: the placements record exactly the
processed sprites in order with no grid fields, every placed padded box
lies left of the cursor inside the open row band or above the current
row, the boxes placed so far are pairwise disjoint, and the accumulators
equal the maximum placed extents. -/
structure RowInv (cfg : PackerConfig) (done : List (SpriteInfo α))
    (st : RowState α) : Prop where
  data : st.placements.map spriteOf = done
  gridsNone : ∀ p ∈ st.placements, p.grid = none
  region : ∀ p ∈ st.placements,
    (xExtent cfg.padding p ≤ st.currentX ∧
     yExtent cfg.padding p ≤ st.currentY + st.rowHeight) ∨
    yExtent cfg.padding p ≤ st.currentY
  disj : st.placements.Pairwise (noOverlap cfg.padding)
  maxW : st.maxWidth = listMax (st.placements.map (xExtent cfg.padding))
  maxH : st.maxHeight = listMax (st.placements.map (yExtent cfg.padding))

/-- Loop invariant of packFixedGrid.  Padded boxes may stick out of
their cell by part of the padding, so the separation bands are the cell
boundaries shifted right and down by padding / 2: each placed padded box
ends before the shifted cursor or before the shifted current row start.
The cursor coordinates stay multiples of g, each placement records its
cell span as the ceil cell counts and contains its unpadded sprite box,
and the accumulators equal the maximum cell extents. -/
structure GridInv (cfg : PackerConfig) (g : Nat) (done : List (SpriteInfo α))
    (st : GridState α) : Prop where
  data : st.placements.map spriteOf = done
  cells : ∀ p ∈ st.placements, ∃ gi,
    p.grid = some gi ∧
    gi.gridCellsWide = cellCount cfg.padding g p.width ∧
    gi.gridCellsHigh = cellCount cfg.padding g p.height ∧
    gi.gridX * g ≤ p.x ∧ p.x + p.width ≤ (gi.gridX + gi.gridCellsWide) * g ∧
    gi.gridY * g ≤ p.y ∧ p.y + p.height ≤ (gi.gridY + gi.gridCellsHigh) * g
  region : ∀ p ∈ st.placements,
    (xExtent cfg.padding p ≤ st.currentX + cfg.padding / 2 ∧
     yExtent cfg.padding p ≤ st.currentY + st.rowHeight + cfg.padding / 2) ∨
    yExtent cfg.padding p ≤ st.currentY + cfg.padding / 2
  disj : st.placements.Pairwise (noOverlap cfg.padding)
  dvdX : g ∣ st.currentX
  dvdY : g ∣ st.currentY
  dvdR : g ∣ st.rowHeight
  maxW : st.maxWidth = listMax (st.placements.map (cellRight g))
  maxH : st.maxHeight = listMax (st.placements.map (cellBottom g))

/-! Geometry of padded bounding boxes. -/

theorem noOverlap_of_sep {pad : Nat} {p q : SpritePlacement α}
    (h : p.x + p.width + pad ≤ q.x ∨ q.x + q.width + pad ≤ p.x ∨
         p.y + p.height + pad ≤ q.y ∨ q.y + q.height + pad ≤ p.y) :
    noOverlap pad p q := by
  intro i j hij
  obtain ⟨hp, hq⟩ := hij
  unfold inPaddedBox at hp hq
  omega

/-! Maximum of a list of naturals, mirroring the running maxWidth and
maxHeight accumulators of the packing loops. -/

theorem listMax_append (l₁ l₂ : List Nat) :
    listMax (l₁ ++ l₂) = max (listMax l₁) (listMax l₂) := by
  induction l₁ with
  | nil => simp [listMax]
  | cons a l ih => simp [listMax, ih, Nat.max_assoc]

theorem listMax_append_singleton (l : List Nat) (a : Nat) :
    listMax (l ++ [a]) = max (listMax l) a := by
  rw [listMax_append]
  simp [listMax]

theorem le_listMax_of_mem {l : List Nat} {a : Nat} (h : a ∈ l) :
    a ≤ listMax l := by
  induction l with
  | nil => cases h
  | cons b l ih =>
    rcases List.mem_cons.mp h with rfl | h2
    · exact Nat.le_max_left _ _
    · exact Nat.le_trans (ih h2) (Nat.le_max_right _ _)

theorem listMax_le {l : List Nat} {m : Nat} (h : ∀ a ∈ l, a ≤ m) :
    listMax l ≤ m := by
  induction l with
  | nil => exact Nat.zero_le m
  | cons b l ih =>
    exact Nat.max_le.mpr ⟨h b (List.mem_cons_self b l), ih fun a ha => h a (List.mem_cons_of_mem b ha)⟩

/-! Arithmetic facts about nextPowerOf2 and the ceiling multiples of the
grid quantization. -/

theorem nextPow2Loop_ge (n : Nat) :
    ∀ fuel acc, n ≤ 2 ^ fuel * acc → n ≤ nextPow2Loop n fuel acc := by
  intro fuel
  induction fuel with
  | zero => intro acc h; simpa [nextPow2Loop] using h
  | succ fuel ih =>
    intro acc h
    unfold nextPow2Loop
    by_cases hle : n ≤ acc
    · rw [if_pos hle]; exact hle
    · rw [if_neg hle]
      apply ih
      calc n ≤ 2 ^ (fuel + 1) * acc := h
        _ = 2 ^ fuel * (acc * 2) := by rw [pow_succ]; ring

theorem nextPow2Loop_pow (n : Nat) :
    ∀ fuel acc, (∃ j, acc = 2 ^ j) → ∃ k, nextPow2Loop n fuel acc = 2 ^ k := by
  intro fuel
  induction fuel with
  | zero => intro acc h; simpa [nextPow2Loop] using h
  | succ fuel ih =>
    intro acc h
    unfold nextPow2Loop
    by_cases hle : n ≤ acc
    · rw [if_pos hle]; exact h
    · rw [if_neg hle]
      obtain ⟨j, rfl⟩ := h
      exact ih (2 ^ j * 2) ⟨j + 1, (pow_succ 2 j).symm⟩

theorem le_nextPowerOf2 (n : Nat) : n ≤ nextPowerOf2 n := by
  unfold nextPowerOf2
  by_cases h : n = 0
  · rw [if_pos h]; omega
  · rw [if_neg h]
    apply nextPow2Loop_ge
    have := Nat.lt_two_pow n
    omega

theorem nextPowerOf2_pow {n : Nat} (h : n ≠ 0) :
    ∃ k, nextPowerOf2 n = 2 ^ k := by
  unfold nextPowerOf2
  rw [if_neg h]
  exact nextPow2Loop_pow n n 1 ⟨0, rfl⟩

/-- Rounding a up to a multiple of g (as ceil(a / g) * g) is at least a. -/
theorem le_ceil_mul {g : Nat} (hg : 0 < g) (a : Nat) :
    a ≤ (a + g - 1) / g * g := by
  rcases Nat.eq_zero_or_pos a with rfl | ha
  · exact Nat.zero_le _
  · have h1 : a + g - 1 = (a - 1) + g := by omega
    rw [h1, Nat.add_div_right _ hg]
    have h2 : a - 1 < ((a - 1) / g + 1) * g :=
      (Nat.div_lt_iff_lt_mul hg).mp (Nat.lt_succ_self _)
    have h3 : a ≤ a - 1 + 1 := by omega
    calc a ≤ (a - 1) + 1 := h3
      _ ≤ ((a - 1) / g + 1) * g := h2
      _ = ((a - 1) / g + 1) * g := rfl

/-- Rounding a up to a multiple of g overshoots by less than g. -/
theorem ceil_mul_lt {g : Nat} (hg : 0 < g) (a : Nat) :
    (a + g - 1) / g * g < a + g := by
  have := Nat.div_mul_le_self (a + g - 1) g
  omega

theorem dvd_ceil_mul (g a : Nat) : g ∣ (a + g - 1) / g * g :=
  Dvd.intro_left _ rfl

/-- Cell boxes span at least the padded sprite extent. -/
theorem le_cellCount_mul {g : Nat} (hg : 0 < g) (pad n : Nat) :
    n + pad ≤ cellCount pad g n * g :=
  le_ceil_mul hg (n + pad)

/-- Cell boxes overshoot the padded sprite extent by less than g. -/
theorem cellCount_mul_lt {g : Nat} (hg : 0 < g) (pad n : Nat) :
    cellCount pad g n * g < n + pad + g :=
  ceil_mul_lt hg (n + pad)

theorem cellCount_pos {g : Nat} (hg : 0 < g) {pad n : Nat} (hn : 0 < n + pad) :
    0 < cellCount pad g n := by
  unfold cellCount
  have : 1 * g ≤ n + pad + g - 1 := by omega
  exact (Nat.le_div_iff_mul_le hg).mpr this

/-! Generic facts about the placement loop. -/

theorem packLoop_invariant {σ τ : Type _} (step : σ → τ → Option σ)
    (Q : List τ → σ → Prop)
    (hstep : ∀ done st t st1, Q done st → step st t = some st1 → Q (done ++ [t]) st1) :
    ∀ (l done : List τ) (st st1 : σ), Q done st →
      packLoop step st l = some st1 → Q (done ++ l) st1 := by
  intro l
  induction l with
  | nil =>
    intro done st st1 hq h
    unfold packLoop at h
    obtain rfl := Option.some.inj h
    simpa using hq
  | cons t ts ih =>
    intro done st st1 hq h
    unfold packLoop at h
    cases h0 : step st t with
    | none => rw [h0] at h; cases h
    | some st2 =>
      rw [h0] at h
      have := ih (done ++ [t]) st2 st1 (hstep done st t st2 hq h0) h
      simpa using this

theorem packLoop_first {σ τ : Type _} {step : σ → τ → Option σ}
    {st st1 : σ} {t : τ} {ts : List τ}
    (h : packLoop step st (t :: ts) = some st1) :
    ∃ st2, step st t = some st2 := by
  unfold packLoop at h
  cases h0 : step st t with
  | none => rw [h0] at h; cases h
  | some st2 => exact ⟨st2, rfl⟩

/-! Invariant of the row-based packing loop. -/

theorem rowInv_init (cfg : PackerConfig) :
    RowInv (α := α) cfg [] ⟨[], cfg.padding, cfg.padding, 0, 0, 0⟩ :=
  ⟨rfl, (by intro p hp; cases hp), (by intro p hp; cases hp), List.Pairwise.nil, rfl, rfl⟩

theorem rowPlace_inv {cfg : PackerConfig} {done : List (SpriteInfo α)}
    {st : RowState α} {sp : SpriteInfo α} {cx cy rh : Nat}
    (inv : RowInv cfg done st)
    (hreg : ∀ p ∈ st.placements,
      (xExtent cfg.padding p ≤ cx ∧ yExtent cfg.padding p ≤ cy + rh) ∨
      yExtent cfg.padding p ≤ cy) :
    RowInv cfg (done ++ [sp]) (rowPlace cfg st sp cx cy rh) := by
  set np : SpritePlacement α := ⟨sp.key, sp.width, sp.height, sp.payload, cx, cy, none⟩ with hnp
  have hmem : ∀ p ∈ (rowPlace cfg st sp cx cy rh).placements,
      p ∈ st.placements ∨ p = np := by
    intro p hp
    simp only [rowPlace, List.mem_append, List.mem_singleton] at hp
    exact hp
  refine ⟨?_, ?_, ?_, ?_, ?_, ?_⟩
  · show (st.placements ++ [np]).map spriteOf = done ++ [sp]
    rw [List.map_append, inv.data]
    rfl
  · intro p hp
    rcases hmem p hp with h | rfl
    · exact inv.gridsNone p h
    · rfl
  · intro p hp
    rcases hmem p hp with h | rfl
    · rcases hreg p h with ⟨h1, h2⟩ | h3
      · refine Or.inl ⟨?_, ?_⟩
        · show xExtent cfg.padding p ≤ cx + (sp.width + cfg.padding)
          omega
        · show yExtent cfg.padding p ≤ cy + max rh (sp.height + cfg.padding)
          have := Nat.le_max_left rh (sp.height + cfg.padding)
          omega
      · exact Or.inr h3
    · refine Or.inl ⟨?_, ?_⟩
      · show np.x + np.width + cfg.padding ≤ cx + (sp.width + cfg.padding)
        simp [hnp]
        omega
      · show np.y + np.height + cfg.padding ≤ cy + max rh (sp.height + cfg.padding)
        have := Nat.le_max_right rh (sp.height + cfg.padding)
        simp [hnp]
        omega
  · show (st.placements ++ [np]).Pairwise (noOverlap cfg.padding)
    rw [List.pairwise_append]
    refine ⟨inv.disj, List.pairwise_singleton _ _, ?_⟩
    intro p hp q hq
    rw [List.mem_singleton] at hq
    subst hq
    rcases hreg p hp with ⟨h1, _⟩ | h3
    · exact noOverlap_of_sep (Or.inl h1)
    · exact noOverlap_of_sep (Or.inr (Or.inr (Or.inl h3)))
  · show max st.maxWidth (cx + sp.width + cfg.padding) =
      listMax ((st.placements ++ [np]).map (xExtent cfg.padding))
    rw [List.map_append]
    simp only [List.map_cons, List.map_nil]
    rw [listMax_append_singleton, inv.maxW]
    rfl
  · show max st.maxHeight (cy + sp.height + cfg.padding) =
      listMax ((st.placements ++ [np]).map (yExtent cfg.padding))
    rw [List.map_append]
    simp only [List.map_cons, List.map_nil]
    rw [listMax_append_singleton, inv.maxH]
    rfl

theorem rowStep_inv {cfg : PackerConfig} {done : List (SpriteInfo α)}
    {st st1 : RowState α} {sp : SpriteInfo α}
    (inv : RowInv cfg done st) (h : rowStep cfg st sp = some st1) :
    RowInv cfg (done ++ [sp]) st1 := by
  unfold rowStep at h
  by_cases hwrap : st.currentX + (sp.width + cfg.padding) > cfg.maxSize
  · rw [if_pos hwrap] at h
    by_cases hover : st.currentY + st.rowHeight + (sp.height + cfg.padding) > cfg.maxSize
    · rw [if_pos hover] at h; cases h
    · rw [if_neg hover] at h
      obtain rfl := Option.some.inj h
      apply rowPlace_inv inv
      intro p hp
      rcases inv.region p hp with ⟨_, h2⟩ | h3
      · exact Or.inr h2
      · exact Or.inr (by omega)
  · rw [if_neg hwrap] at h
    obtain rfl := Option.some.inj h
    exact rowPlace_inv inv inv.region

/-- Inversion of a successful packRowBased run: the final loop state
satisfies the invariant over the sorted sprite list. -/
theorem packRowBased_some {cfg : PackerConfig} {sprites : List (SpriteInfo α)}
    {r : PackResult α} (h : packRowBased cfg sprites = some r) :
    ∃ st : RowState α, RowInv cfg (rowSorted cfg sprites) st ∧
      r.placements = st.placements ∧
      r.width = min (nextPowerOf2 st.maxWidth) cfg.maxSize ∧
      r.height = min (nextPowerOf2 st.maxHeight) cfg.maxSize := by
  unfold packRowBased at h
  cases hl : packLoop (rowStep cfg) ⟨[], cfg.padding, cfg.padding, 0, 0, 0⟩
      (rowSorted cfg sprites) with
  | none => rw [hl] at h; cases h
  | some st =>
    rw [hl] at h
    obtain rfl := Option.some.inj h
    refine ⟨st, ?_, rfl, rfl, rfl⟩
    have := packLoop_invariant (rowStep cfg) (RowInv cfg)
      (fun done st2 t st3 hq hstep => rowStep_inv hq hstep)
      (rowSorted cfg sprites) [] _ st (rowInv_init cfg) hl
    simpa using this

/-! Invariant of the fixed-grid packing loop. -/

theorem gridInv_init (cfg : PackerConfig) (g : Nat) :
    GridInv (α := α) cfg g [] ⟨[], 0, 0, 0, 0, 0⟩ :=
  ⟨rfl, (by intro p hp; cases hp), (by intro p hp; cases hp), List.Pairwise.nil,
    Dvd.intro 0 rfl, Dvd.intro 0 rfl, Dvd.intro 0 rfl, rfl, rfl⟩

theorem gridPlace_inv {cfg : PackerConfig} {g : Nat} (hg : 0 < g)
    {done : List (SpriteInfo α)} {st : GridState α} {sp : SpriteInfo α}
    {cx cy rh : Nat}
    (inv : GridInv cfg g done st)
    (hdx : g ∣ cx) (hdy : g ∣ cy) (hdr : g ∣ rh)
    (hreg : ∀ p ∈ st.placements,
      (xExtent cfg.padding p ≤ cx + cfg.padding / 2 ∧
       yExtent cfg.padding p ≤ cy + rh + cfg.padding / 2) ∨
      yExtent cfg.padding p ≤ cy + cfg.padding / 2) :
    GridInv cfg g (done ++ [sp]) (gridPlace cfg g st sp cx cy rh) := by
  set cw := cellCount cfg.padding g sp.width * g with hcw
  set ch := cellCount cfg.padding g sp.height * g with hch
  have hcwge : sp.width + cfg.padding ≤ cw := le_cellCount_mul hg _ _
  have hchge : sp.height + cfg.padding ≤ ch := le_cellCount_mul hg _ _
  set np : SpritePlacement α :=
    ⟨sp.key, sp.width, sp.height, sp.payload,
      cx + (cw - sp.width) / 2, cy + (ch - sp.height) / 2,
      some ⟨cx / g, cy / g, cellCount cfg.padding g sp.width,
        cellCount cfg.padding g sp.height⟩⟩ with hnp
  have hgx : cx / g * g = cx := Nat.div_mul_cancel hdx
  have hgy : cy / g * g = cy := Nat.div_mul_cancel hdy
  have hplace : (gridPlace cfg g st sp cx cy rh).placements =
      st.placements ++ [np] := rfl
  have hmem : ∀ p ∈ (gridPlace cfg g st sp cx cy rh).placements,
      p ∈ st.placements ∨ p = np := by
    intro p hp
    rw [hplace, List.mem_append, List.mem_singleton] at hp
    exact hp
  -- shifted band bounds for the new placement
  have hxlo : cx + cfg.padding / 2 ≤ np.x := by
    have : cfg.padding ≤ cw - sp.width := by omega
    have := Nat.div_le_div_right (c := 2) this
    simp only [hnp]
    omega
  have hxhi : xExtent cfg.padding np ≤ cx + cw + cfg.padding / 2 := by
    show np.x + np.width + cfg.padding ≤ cx + cw + cfg.padding / 2
    simp only [hnp]
    omega
  have hylo : cy + cfg.padding / 2 ≤ np.y := by
    have : cfg.padding ≤ ch - sp.height := by omega
    have := Nat.div_le_div_right (c := 2) this
    simp only [hnp]
    omega
  have hyhi : yExtent cfg.padding np ≤ cy + ch + cfg.padding / 2 := by
    show np.y + np.height + cfg.padding ≤ cy + ch + cfg.padding / 2
    simp only [hnp]
    omega
  refine ⟨?_, ?_, ?_, ?_, ?_, ?_, ?_, ?_, ?_⟩
  · rw [hplace, List.map_append, inv.data]
    rfl
  · intro p hp
    rcases hmem p hp with h | rfl
    · exact inv.cells p h
    · refine ⟨_, rfl, rfl, rfl, ?_, ?_, ?_, ?_⟩
      · show cx / g * g ≤ np.x
        rw [hgx]
        simp only [hnp]
        omega
      · show np.x + np.width ≤ (cx / g + cellCount cfg.padding g np.width) * g
        have hoff : (cw - sp.width) / 2 ≤ cw - sp.width := Nat.div_le_self _ _
        simp only [hnp]
        rw [Nat.add_mul, hgx]
        omega
      · show cy / g * g ≤ np.y
        rw [hgy]
        simp only [hnp]
        omega
      · show np.y + np.height ≤ (cy / g + cellCount cfg.padding g np.height) * g
        have hoff : (ch - sp.height) / 2 ≤ ch - sp.height := Nat.div_le_self _ _
        simp only [hnp]
        rw [Nat.add_mul, hgy]
        omega
  · intro p hp
    rcases hmem p hp with h | rfl
    · rcases hreg p h with ⟨h1, h2⟩ | h3
      · refine Or.inl ⟨?_, ?_⟩
        · show xExtent cfg.padding p ≤ cx + cw + cfg.padding / 2
          omega
        · show yExtent cfg.padding p ≤ cy + max rh ch + cfg.padding / 2
          have := Nat.le_max_left rh ch
          omega
      · exact Or.inr h3
    · refine Or.inl ⟨?_, ?_⟩
      · exact hxhi
      · show yExtent cfg.padding np ≤ cy + max rh ch + cfg.padding / 2
        have := Nat.le_max_right rh ch
        omega
  · rw [hplace, List.pairwise_append]
    refine ⟨inv.disj, List.pairwise_singleton _ _, ?_⟩
    intro p hp q hq
    rw [List.mem_singleton] at hq
    subst hq
    rcases hreg p hp with ⟨h1, _⟩ | h3
    · refine noOverlap_of_sep (Or.inl ?_)
      have h1x : p.x + p.width + cfg.padding ≤ cx + cfg.padding / 2 := h1
      omega
    · refine noOverlap_of_sep (Or.inr (Or.inr (Or.inl ?_)))
      have h3y : p.y + p.height + cfg.padding ≤ cy + cfg.padding / 2 := h3
      omega
  · show g ∣ cx + cw
    exact Nat.dvd_add hdx (Dvd.intro_left _ rfl)
  · exact hdy
  · show g ∣ max rh ch
    rcases Nat.le_total rh ch with h | h
    · rw [Nat.max_eq_right h]; exact Dvd.intro_left _ rfl
    · rw [Nat.max_eq_left h]; exact hdr
  · show max st.maxWidth (cx + cw) =
      listMax ((st.placements ++ [np]).map (cellRight g))
    rw [List.map_append]
    simp only [List.map_cons, List.map_nil]
    rw [listMax_append_singleton, inv.maxW]
    have : cellRight g np = cx + cw := by
      show (cx / g + cellCount cfg.padding g sp.width) * g = cx + cw
      rw [Nat.add_mul, hgx, hcw]
    rw [this]
  · show max st.maxHeight (cy + ch) =
      listMax ((st.placements ++ [np]).map (cellBottom g))
    rw [List.map_append]
    simp only [List.map_cons, List.map_nil]
    rw [listMax_append_singleton, inv.maxH]
    have : cellBottom g np = cy + ch := by
      show (cy / g + cellCount cfg.padding g sp.height) * g = cy + ch
      rw [Nat.add_mul, hgy, hch]
    rw [this]

theorem gridStep_inv {cfg : PackerConfig} {g : Nat} (hg : 0 < g)
    {done : List (SpriteInfo α)} {st st1 : GridState α} {sp : SpriteInfo α}
    (inv : GridInv cfg g done st) (h : gridStep cfg g st sp = some st1) :
    GridInv cfg g (done ++ [sp]) st1 := by
  unfold gridStep at h
  simp only at h
  by_cases hwrap : st.currentX + cellCount cfg.padding g sp.width * g > cfg.maxSize
  · rw [if_pos hwrap] at h
    by_cases hover : st.currentY + st.rowHeight + cellCount cfg.padding g sp.height * g > cfg.maxSize
    · rw [if_pos hover] at h; cases h
    · rw [if_neg hover] at h
      obtain rfl := Option.some.inj h
      apply gridPlace_inv hg inv (Dvd.intro 0 rfl) (Nat.dvd_add inv.dvdY inv.dvdR)
        (Dvd.intro 0 rfl)
      intro p hp
      rcases inv.region p hp with ⟨_, h2⟩ | h3
      · exact Or.inr (by omega)
      · exact Or.inr (by omega)
  · rw [if_neg hwrap] at h
    obtain rfl := Option.some.inj h
    exact gridPlace_inv hg inv inv.dvdX inv.dvdY inv.dvdR inv.region

/-- Inversion of a successful packFixedGrid run. -/
theorem packFixedGrid_some {cfg : PackerConfig} {g : Nat} (hg : 0 < g)
    {sprites : List (SpriteInfo α)} {r : PackResult α}
    (h : packFixedGrid cfg g sprites = some r) :
    ∃ st : GridState α,
      packLoop (gridStep cfg g) ⟨[], 0, 0, 0, 0, 0⟩ (gridSorted cfg sprites) = some st ∧
      GridInv cfg g (gridSorted cfg sprites) st ∧
      r.placements = st.placements ∧
      r.width = min (nextPowerOf2 ((st.maxWidth + g - 1) / g * g)) cfg.maxSize ∧
      r.height = min (nextPowerOf2 ((st.maxHeight + g - 1) / g * g)) cfg.maxSize := by
  unfold packFixedGrid at h
  cases hl : packLoop (gridStep cfg g) ⟨[], 0, 0, 0, 0, 0⟩ (gridSorted cfg sprites) with
  | none => rw [hl] at h; cases h
  | some st =>
    rw [hl] at h
    obtain rfl := Option.some.inj h
    refine ⟨st, rfl, ?_, rfl, rfl, rfl⟩
    have := packLoop_invariant (gridStep cfg g) (GridInv cfg g)
      (fun done st2 t st3 hq hstep => gridStep_inv hg hq hstep)
      (gridSorted cfg sprites) [] _ st (gridInv_init cfg g) hl
    simpa using this

/-! Dispatch of pack onto the two strategies. -/

theorem pack_cases {cfg : PackerConfig} {sprites : List (SpriteInfo α)}
    {r : PackResult α} (h : pack cfg sprites = some r) :
    (sprites = [] ∧ r = ⟨[], 0, 0⟩) ∨
    (sprites ≠ [] ∧
      (((cfg.gridSize = none ∨ cfg.gridSize = some 0) ∧
          packRowBased cfg sprites = some r) ∨
       (∃ g, cfg.gridSize = some g ∧ g ≠ 0 ∧
          packFixedGrid cfg g sprites = some r))) := by
  unfold pack at h
  by_cases he : sprites.isEmpty
  · rw [if_pos he] at h
    exact Or.inl ⟨List.isEmpty_iff.mp he, (Option.some.inj h).symm⟩
  · rw [if_neg he] at h
    have hne : sprites ≠ [] := by
      intro hnil
      exact he (by rw [hnil]; rfl)
    cases hgs : cfg.gridSize with
    | none =>
      rw [hgs] at h
      exact Or.inr ⟨hne, Or.inl ⟨Or.inl rfl, h⟩⟩
    | some g =>
      rw [hgs] at h
      have h2 : (if g = 0 then packRowBased cfg sprites
          else packFixedGrid cfg g sprites) = some r := h
      by_cases hg0 : g = 0
      · subst hg0
        rw [if_pos rfl] at h2
        exact Or.inr ⟨hne, Or.inl ⟨Or.inr rfl, h2⟩⟩
      · rw [if_neg hg0] at h2
        exact Or.inr ⟨hne, Or.inr ⟨g, rfl, hg0, h2⟩⟩

theorem rowSorted_perm (cfg : PackerConfig) (sprites : List (SpriteInfo α)) :
    (rowSorted cfg sprites).Perm sprites :=
  List.perm_insertionSort _ _

theorem gridSorted_perm (cfg : PackerConfig) (sprites : List (SpriteInfo α)) :
    (gridSorted cfg sprites).Perm sprites :=
  List.perm_insertionSort _ _

/-! Claim theorems. -/

/-- C1: for every sprite list on which pack returns without raising, and
under both strategies, any two distinct placements in the result have
non-intersecting padded bounding boxes
[x, x + width + padding) × [y, y + height + padding). -/
theorem pack_no_overlap {α : Type} {cfg : PackerConfig}
    {sprites : List (SpriteInfo α)} {r : PackResult α}
    (h : pack cfg sprites = some r) :
    r.placements.Pairwise (noOverlap cfg.padding) := by
  rcases pack_cases h with ⟨_, rfl⟩ | ⟨hne, ⟨_, hrow⟩ | ⟨g, hgs, hg0, hgrid⟩⟩
  · exact List.Pairwise.nil
  · obtain ⟨st, inv, hp, _, _⟩ := packRowBased_some hrow
    rw [hp]
    exact inv.disj
  · obtain ⟨st, _, inv, hp, _, _⟩ := packFixedGrid_some (Nat.pos_of_ne_zero hg0) hgrid
    rw [hp]
    exact inv.disj

/-- Witness for C1 at a concrete input: two sprites packed by the row
strategy with the default configuration. -/
theorem pack_no_overlap_witness :
    List.Pairwise (noOverlap 2)
      [(⟨"a", 64, 64, (), 2, 2, none⟩ : SpritePlacement Unit),
       ⟨"b", 32, 32, (), 68, 2, none⟩] := by
  have h : pack ⟨2, 2048, none, false⟩ [⟨"a", 64, 64, ()⟩, ⟨"b", 32, 32, ()⟩] =
      some ⟨[⟨"a", 64, 64, (), 2, 2, none⟩, ⟨"b", 32, 32, (), 68, 2, none⟩],
        128, 128⟩ := by decide
  exact pack_no_overlap h

/-- C9: for every sprite list on which pack returns without raising, the
result holds exactly one placement per input sprite, carrying key,
width, height and the opaque payload unchanged; the grid fields are
present exactly in grid mode. -/
theorem pack_preserves_sprites {α : Type} {cfg : PackerConfig}
    {sprites : List (SpriteInfo α)} {r : PackResult α}
    (h : pack cfg sprites = some r) :
    (r.placements.map spriteOf).Perm sprites ∧
    ∀ p ∈ r.placements, p.grid.isSome = usesGrid cfg := by
  rcases pack_cases h with ⟨rfl, rfl⟩ | ⟨hne, ⟨hmode, hrow⟩ | ⟨g, hgs, hg0, hgrid⟩⟩
  · exact ⟨List.Perm.refl _, by intro p hp; cases hp⟩
  · obtain ⟨st, inv, hp, _, _⟩ := packRowBased_some hrow
    constructor
    · rw [hp, inv.data]
      exact rowSorted_perm cfg sprites
    · intro p hpm
      rw [hp] at hpm
      rw [inv.gridsNone p hpm]
      rcases hmode with hm | hm <;> simp [usesGrid, hm]
  · obtain ⟨st, _, inv, hp, _, _⟩ := packFixedGrid_some (Nat.pos_of_ne_zero hg0) hgrid
    constructor
    · rw [hp, inv.data]
      exact gridSorted_perm cfg sprites
    · intro p hpm
      rw [hp] at hpm
      obtain ⟨gi, hgi, _⟩ := inv.cells p hpm
      rw [hgi]
      simp [usesGrid, hgs, hg0]

/-- Witness for C9 at a concrete input: the two packed placements carry
the two input sprites, permuted by the height sort. -/
theorem pack_preserves_sprites_witness :
    (List.map spriteOf
      [(⟨"b", 64, 64, (), 2, 2, none⟩ : SpritePlacement Unit),
       ⟨"a", 32, 32, (), 68, 2, none⟩]).Perm
      [⟨"a", 32, 32, ()⟩, ⟨"b", 64, 64, ()⟩] := by
  have h : pack ⟨2, 2048, none, false⟩ [⟨"a", 32, 32, ()⟩, ⟨"b", 64, 64, ()⟩] =
      some ⟨[⟨"b", 64, 64, (), 2, 2, none⟩, ⟨"a", 32, 32, (), 68, 2, none⟩],
        128, 128⟩ := by decide
  exact (pack_preserves_sprites h).1

/-- C2 fails as stated: in grid mode a single 30 by 30 sprite with
padding 2 and grid size 32 packs into a 32 by 32 canvas at x = y = 1,
so its padded bounding box reaches 33 and exceeds the canvas; in row
mode a single 10 by 4096 sprite packs without error but the returned
height is clamped to maxSize = 2048 while the padded box reaches 4100. -/
theorem pack_containment_counterexample :
    (pack ⟨2, 2048, some 32, false⟩ [⟨"a", 30, 30, ()⟩] =
      some ⟨[⟨"a", 30, 30, (), 1, 1, some ⟨0, 0, 1, 1⟩⟩], 32, 32⟩) ∧
    1 + 30 + 2 > 32 ∧
    (pack ⟨2, 2048, none, false⟩ [⟨"b", 10, 4096, ()⟩] =
      some ⟨[⟨"b", 10, 4096, (), 2, 2, none⟩], 16, 2048⟩) ∧
    2 + 4096 + 2 > 2048 := by
  refine ⟨by decide, by decide, by decide, by decide⟩

/-- C2 amended: in row mode every placement's padded bounding box lies
inside [0, W) × [0, H) provided no padded extent exceeds maxSize (the
min clamp otherwise cuts oversized content off); in grid mode that
containment guarantee holds for the placement's cell box and therefore
for the sprite's unpadded box, again provided no cell extent exceeds
maxSize — the padded box itself may overhang the canvas edge because
the sprite is centered in its cells. -/
theorem pack_containment_amended {α : Type} {cfg : PackerConfig}
    {sprites : List (SpriteInfo α)} {r : PackResult α}
    (h : pack cfg sprites = some r) :
    ((cfg.gridSize = none ∨ cfg.gridSize = some 0) →
      (∀ p ∈ r.placements, xExtent cfg.padding p ≤ cfg.maxSize ∧
        yExtent cfg.padding p ≤ cfg.maxSize) →
      ∀ p ∈ r.placements, xExtent cfg.padding p ≤ r.width ∧
        yExtent cfg.padding p ≤ r.height) ∧
    (∀ g, cfg.gridSize = some g → g ≠ 0 →
      (∀ p ∈ r.placements, cellRight g p ≤ cfg.maxSize ∧
        cellBottom g p ≤ cfg.maxSize) →
      ∀ p ∈ r.placements, p.x + p.width ≤ r.width ∧ p.y + p.height ≤ r.height ∧
        cellRight g p ≤ r.width ∧ cellBottom g p ≤ r.height) := by
  rcases pack_cases h with ⟨_, rfl⟩ | ⟨hne, ⟨hmode, hrow⟩ | ⟨g, hgs, hg0, hgrid⟩⟩
  · exact ⟨fun _ _ p hp => absurd hp (by simp),
      fun _ _ _ _ p hp => absurd hp (by simp)⟩
  · obtain ⟨st, inv, hp, hw, hh⟩ := packRowBased_some hrow
    constructor
    · intro _ hbound p hpm
      rw [hp] at hpm
      have hmw : st.maxWidth ≤ cfg.maxSize := by
        rw [inv.maxW]
        apply listMax_le
        intro a ha
        obtain ⟨q, hq, rfl⟩ := List.mem_map.mp ha
        exact (hbound q (by rw [hp]; exact hq)).1
      have hmh : st.maxHeight ≤ cfg.maxSize := by
        rw [inv.maxH]
        apply listMax_le
        intro a ha
        obtain ⟨q, hq, rfl⟩ := List.mem_map.mp ha
        exact (hbound q (by rw [hp]; exact hq)).2
      have hxw : xExtent cfg.padding p ≤ st.maxWidth := by
        rw [inv.maxW]
        exact le_listMax_of_mem (List.mem_map_of_mem _ hpm)
      have hyh : yExtent cfg.padding p ≤ st.maxHeight := by
        rw [inv.maxH]
        exact le_listMax_of_mem (List.mem_map_of_mem _ hpm)
      constructor
      · rw [hw]
        exact le_trans hxw (Nat.le_min.mpr ⟨le_nextPowerOf2 _, hmw⟩)
      · rw [hh]
        exact le_trans hyh (Nat.le_min.mpr ⟨le_nextPowerOf2 _, hmh⟩)
    · intro g hg hgz _ p hpm
      rcases hmode with hm | hm
      · rw [hm] at hg; cases hg
      · rw [hm] at hg
        exact absurd (Option.some.inj hg).symm hgz
  · have hgpos : 0 < g := Nat.pos_of_ne_zero hg0
    obtain ⟨st, _, inv, hp, hw, hh⟩ := packFixedGrid_some hgpos hgrid
    constructor
    · intro hm _ _ _
      rcases hm with hm | hm
      · rw [hgs] at hm; cases hm
      · rw [hgs] at hm
        exact absurd (Option.some.inj hm) hg0
    · intro g2 hg2 hg2z hbound p hpm
      rw [hgs] at hg2
      obtain rfl := Option.some.inj hg2
      rw [hp] at hpm
      have hmw : st.maxWidth ≤ cfg.maxSize := by
        rw [inv.maxW]
        apply listMax_le
        intro a ha
        obtain ⟨q, hq, rfl⟩ := List.mem_map.mp ha
        exact (hbound q (by rw [hp]; exact hq)).1
      have hmh : st.maxHeight ≤ cfg.maxSize := by
        rw [inv.maxH]
        apply listMax_le
        intro a ha
        obtain ⟨q, hq, rfl⟩ := List.mem_map.mp ha
        exact (hbound q (by rw [hp]; exact hq)).2
      have hWge : st.maxWidth ≤ r.width := by
        rw [hw]
        exact Nat.le_min.mpr
          ⟨le_trans (le_ceil_mul hgpos _) (le_nextPowerOf2 _), hmw⟩
      have hHge : st.maxHeight ≤ r.height := by
        rw [hh]
        exact Nat.le_min.mpr
          ⟨le_trans (le_ceil_mul hgpos _) (le_nextPowerOf2 _), hmh⟩
      have hcr : cellRight g p ≤ st.maxWidth := by
        rw [inv.maxW]
        exact le_listMax_of_mem (List.mem_map_of_mem _ hpm)
      have hcb : cellBottom g p ≤ st.maxHeight := by
        rw [inv.maxH]
        exact le_listMax_of_mem (List.mem_map_of_mem _ hpm)
      obtain ⟨gi, hgi, _, _, _, hxcell, _, hycell⟩ := inv.cells p hpm
      have hcrp : cellRight g p = (gi.gridX + gi.gridCellsWide) * g := by
        unfold cellRight
        rw [hgi]
      have hcbp : cellBottom g p = (gi.gridY + gi.gridCellsHigh) * g := by
        unfold cellBottom
        rw [hgi]
      refine ⟨?_, ?_, le_trans hcr hWge, le_trans hcb hHge⟩
      · calc p.x + p.width ≤ (gi.gridX + gi.gridCellsWide) * g := hxcell
          _ = cellRight g p := hcrp.symm
          _ ≤ r.width := le_trans hcr hWge
      · calc p.y + p.height ≤ (gi.gridY + gi.gridCellsHigh) * g := hycell
          _ = cellBottom g p := hcbp.symm
          _ ≤ r.height := le_trans hcb hHge

/-- Witness for the amended C2 at a concrete input: one 30 by 30 sprite
in grid mode, whose cell box (and unpadded sprite box) is contained in
the returned 32 by 32 canvas. -/
theorem pack_containment_amended_witness :
    1 + 30 ≤ 32 ∧ 1 + 30 ≤ 32 ∧
    cellRight 32 (⟨"a", 30, 30, (), 1, 1, some ⟨0, 0, 1, 1⟩⟩ : SpritePlacement Unit) ≤ 32 ∧
    cellBottom 32 (⟨"a", 30, 30, (), 1, 1, some ⟨0, 0, 1, 1⟩⟩ : SpritePlacement Unit) ≤ 32 := by
  have h : pack ⟨2, 2048, some 32, false⟩ [⟨"a", 30, 30, ()⟩] =
      some ⟨[⟨"a", 30, 30, (), 1, 1, some ⟨0, 0, 1, 1⟩⟩], 32, 32⟩ := by decide
  exact (pack_containment_amended h).2 32 rfl (by decide) (by decide)
    ⟨"a", 30, 30, (), 1, 1, some ⟨0, 0, 1, 1⟩⟩ (by decide)

theorem min_pow2_eq (a b : Nat) : ∃ k, min (2 ^ a) (2 ^ b) = 2 ^ k := by
  rcases Nat.le_total a b with h | h
  · exact ⟨a, Nat.min_eq_left (Nat.pow_le_pow_right (by omega) h)⟩
  · exact ⟨b, Nat.min_eq_right (Nat.pow_le_pow_right (by omega) h)⟩

theorem pow_dvd_min {i k m : Nat} (hik : i ≤ k) (him : i ≤ m) :
    2 ^ i ∣ min (2 ^ k) (2 ^ m) := by
  rcases Nat.le_total k m with h | h
  · rw [Nat.min_eq_left (Nat.pow_le_pow_right (by omega) h)]
    exact pow_dvd_pow 2 hik
  · rw [Nat.min_eq_right (Nat.pow_le_pow_right (by omega) h)]
    exact pow_dvd_pow 2 him

theorem exists_placement {ps : List (SpritePlacement α)}
    {done sprites : List (SpriteInfo α)}
    (hdata : ps.map spriteOf = done) (hperm : done.Perm sprites)
    (hne : sprites ≠ []) :
    ∃ p ∈ ps, spriteOf p ∈ sprites := by
  cases hps : ps with
  | nil =>
    exfalso
    apply hne
    rw [hps] at hdata
    have hdone : done = [] := hdata.symm
    rw [hdone] at hperm
    exact hperm.symm.eq_nil
  | cons p rest =>
    refine ⟨p, List.mem_cons_self p rest, ?_⟩
    apply hperm.mem_iff.mp
    rw [← hdata, hps]
    exact List.mem_map_of_mem _ (List.mem_cons_self p rest)

/-- In grid mode, any placement forces both accumulators to be at least
one full grid cell. -/
theorem gridInv_g_le {cfg : PackerConfig} {g : Nat} (hg : 0 < g)
    {done : List (SpriteInfo α)} {st : GridState α}
    (inv : GridInv cfg g done st) {p : SpritePlacement α}
    (hp : p ∈ st.placements)
    (hpw : 0 < p.width + cfg.padding) (hph : 0 < p.height + cfg.padding) :
    g ≤ st.maxWidth ∧ g ≤ st.maxHeight := by
  obtain ⟨gi, hgi, hcw, hch, _, _, _, _⟩ := inv.cells p hp
  have h1 : g ≤ cellRight g p := by
    unfold cellRight
    rw [hgi]
    have hone : 1 ≤ gi.gridCellsWide := by
      rw [hcw]
      exact cellCount_pos hg hpw
    calc g = 1 * g := (Nat.one_mul g).symm
      _ ≤ (gi.gridX + gi.gridCellsWide) * g :=
        Nat.mul_le_mul_right g (by omega)
  have h2 : g ≤ cellBottom g p := by
    unfold cellBottom
    rw [hgi]
    have hone : 1 ≤ gi.gridCellsHigh := by
      rw [hch]
      exact cellCount_pos hg hph
    calc g = 1 * g := (Nat.one_mul g).symm
      _ ≤ (gi.gridY + gi.gridCellsHigh) * g :=
        Nat.mul_le_mul_right g (by omega)
  constructor
  · rw [inv.maxW]
    exact le_trans h1 (le_listMax_of_mem (List.mem_map_of_mem _ hp))
  · rw [inv.maxH]
    exact le_trans h2 (le_listMax_of_mem (List.mem_map_of_mem _ hp))

/-- C3: with the spec's data model (positive sprite dimensions) and its
configuration contract (maxSize a power of two, validated by the CLI),
pack returns dimensions that are exactly powers of two for nonempty
input, exactly zero for empty input, and never exceed maxSize — in both
strategies. -/
theorem pack_pow2_dims {α : Type} {cfg : PackerConfig}
    {sprites : List (SpriteInfo α)} {r : PackResult α}
    (hpos : ∀ s ∈ sprites, 0 < s.width ∧ 0 < s.height)
    (hmax : ∃ m, cfg.maxSize = 2 ^ m)
    (h : pack cfg sprites = some r) :
    (sprites = [] → r.width = 0 ∧ r.height = 0) ∧
    (sprites ≠ [] → (∃ k, r.width = 2 ^ k) ∧ (∃ k, r.height = 2 ^ k)) ∧
    r.width ≤ cfg.maxSize ∧ r.height ≤ cfg.maxSize := by
  obtain ⟨m, hm⟩ := hmax
  rcases pack_cases h with ⟨rfl, rfl⟩ | ⟨hne, ⟨hmode, hrow⟩ | ⟨g, hgs, hg0, hgrid⟩⟩
  · exact ⟨fun _ => ⟨rfl, rfl⟩, fun hne => absurd rfl hne, Nat.zero_le _, Nat.zero_le _⟩
  · obtain ⟨st, inv, hp, hw, hh⟩ := packRowBased_some hrow
    obtain ⟨p0, hp0, hsp0⟩ :=
      exists_placement inv.data (rowSorted_perm cfg sprites) hne
    have hwpos : 0 < p0.width := (hpos _ hsp0).1
    have hhpos : 0 < p0.height := (hpos _ hsp0).2
    have hmw : st.maxWidth ≠ 0 := by
      have hx : xExtent cfg.padding p0 ≤ st.maxWidth := by
        rw [inv.maxW]
        exact le_listMax_of_mem (List.mem_map_of_mem _ hp0)
      have : 0 < xExtent cfg.padding p0 := by unfold xExtent; omega
      omega
    have hmh : st.maxHeight ≠ 0 := by
      have hy : yExtent cfg.padding p0 ≤ st.maxHeight := by
        rw [inv.maxH]
        exact le_listMax_of_mem (List.mem_map_of_mem _ hp0)
      have : 0 < yExtent cfg.padding p0 := by unfold yExtent; omega
      omega
    refine ⟨fun h0 => absurd h0 hne, fun _ => ⟨?_, ?_⟩, ?_, ?_⟩
    · obtain ⟨k, hk⟩ := nextPowerOf2_pow hmw
      rw [hw, hk, hm]
      exact min_pow2_eq k m
    · obtain ⟨k, hk⟩ := nextPowerOf2_pow hmh
      rw [hh, hk, hm]
      exact min_pow2_eq k m
    · rw [hw]; exact Nat.min_le_right _ _
    · rw [hh]; exact Nat.min_le_right _ _
  · have hgpos : 0 < g := Nat.pos_of_ne_zero hg0
    obtain ⟨st, _, inv, hp, hw, hh⟩ := packFixedGrid_some hgpos hgrid
    obtain ⟨p0, hp0, hsp0⟩ :=
      exists_placement inv.data (gridSorted_perm cfg sprites) hne
    have hwpos : 0 < p0.width := (hpos _ hsp0).1
    have hhpos : 0 < p0.height := (hpos _ hsp0).2
    obtain ⟨hgw, hgh⟩ := gridInv_g_le hgpos inv hp0 (by omega) (by omega)
    have hmw : (st.maxWidth + g - 1) / g * g ≠ 0 := by
      have := le_ceil_mul hgpos st.maxWidth
      omega
    have hmh : (st.maxHeight + g - 1) / g * g ≠ 0 := by
      have := le_ceil_mul hgpos st.maxHeight
      omega
    refine ⟨fun h0 => absurd h0 hne, fun _ => ⟨?_, ?_⟩, ?_, ?_⟩
    · obtain ⟨k, hk⟩ := nextPowerOf2_pow hmw
      rw [hw, hk, hm]
      exact min_pow2_eq k m
    · obtain ⟨k, hk⟩ := nextPowerOf2_pow hmh
      rw [hh, hk, hm]
      exact min_pow2_eq k m
    · rw [hw]; exact Nat.min_le_right _ _
    · rw [hh]; exact Nat.min_le_right _ _

/-- Witness for C3 at a concrete input: one 64 by 64 sprite with the
default configuration gives a 128 by 128 canvas. -/
theorem pack_pow2_dims_witness :
    pack ⟨2, 2048, none, false⟩ [(⟨"a", 64, 64, ()⟩ : SpriteInfo Unit)] =
      some ⟨[⟨"a", 64, 64, (), 2, 2, none⟩], 128, 128⟩ ∧
    (∃ k, (128 : Nat) = 2 ^ k) ∧ (128 : Nat) ≤ 2048 := by
  have h : pack ⟨2, 2048, none, false⟩ [(⟨"a", 64, 64, ()⟩ : SpriteInfo Unit)] =
      some ⟨[⟨"a", 64, 64, (), 2, 2, none⟩], 128, 128⟩ := by decide
  have h2 := pack_pow2_dims (by decide) ⟨11, rfl⟩ h
  exact ⟨h, (h2.2.1 (by decide)).1, h2.2.2.1⟩

/-- C4 fails as stated: with gridSize 3 (not a power of two) a single
1 by 1 sprite with padding 0 packs successfully, yet the returned
canvas is 4 by 4 — the power-of-two rounding after grid alignment is
not a multiple of 3. -/
theorem pack_grid_multiple_counterexample :
    (pack ⟨0, 2048, some 3, false⟩ [⟨"a", 1, 1, ()⟩] =
      some ⟨[⟨"a", 1, 1, (), 1, 1, some ⟨0, 0, 1, 1⟩⟩], 4, 4⟩) ∧
    ¬ (3 ∣ 4) := ⟨by decide, by decide⟩

/-- C4 amended: in grid mode the returned width and height are exact
multiples of gridSize provided gridSize is a power of two (and maxSize
is a power of two, as the CLI validates); the counterexample shows the
property fails for non-power-of-two grid sizes. -/
theorem pack_grid_multiple_amended {α : Type} {cfg : PackerConfig} {g : Nat}
    {sprites : List (SpriteInfo α)} {r : PackResult α}
    (hgs : cfg.gridSize = some g)
    (hgp : ∃ i, g = 2 ^ i)
    (hmax : ∃ m, cfg.maxSize = 2 ^ m)
    (hpos : ∀ s ∈ sprites, 0 < s.width ∧ 0 < s.height)
    (h : pack cfg sprites = some r) :
    g ∣ r.width ∧ g ∣ r.height := by
  obtain ⟨i, rfl⟩ := hgp
  obtain ⟨m, hm⟩ := hmax
  have hgpos : (0:Nat) < 2 ^ i := Nat.pow_pos (by omega)
  rcases pack_cases h with ⟨rfl, rfl⟩ | ⟨hne, ⟨hmode, hrow⟩ | ⟨g2, hgs2, hg0, hgrid⟩⟩
  · exact ⟨Dvd.intro 0 rfl, Dvd.intro 0 rfl⟩
  · rcases hmode with hm2 | hm2
    · rw [hgs] at hm2; cases hm2
    · rw [hgs] at hm2
      have := Option.some.inj hm2
      omega
  · rw [hgs] at hgs2
    obtain rfl := Option.some.inj hgs2
    obtain ⟨st, hloop, inv, hp, hw, hh⟩ := packFixedGrid_some hgpos hgrid
    -- The first processed sprite shows g ≤ maxSize: its step succeeded
    -- either without wrapping (cell width fits) or after the vertical
    -- capacity check (cell height fits), and both cell sides are ≥ g.
    have hlen := (gridSorted_perm cfg sprites).length_eq
    have hsne : gridSorted cfg sprites ≠ [] := by
      intro h0
      apply hne
      rw [h0] at hlen
      exact List.eq_nil_of_length_eq_zero hlen.symm
    obtain ⟨t, ts, hts⟩ := List.exists_cons_of_ne_nil hsne
    rw [hts] at hloop
    obtain ⟨st2, hstep⟩ := packLoop_first hloop
    have htm : t ∈ sprites := (gridSorted_perm cfg sprites).mem_iff.mp
      (by rw [hts]; exact List.mem_cons_self t ts)
    have hcwge : 2 ^ i ≤ cellCount cfg.padding (2 ^ i) t.width * 2 ^ i := by
      have h1 : 1 ≤ cellCount cfg.padding (2 ^ i) t.width :=
        cellCount_pos hgpos (by have := (hpos t htm).1; omega)
      calc (2:Nat) ^ i = 1 * 2 ^ i := (Nat.one_mul _).symm
        _ ≤ _ := Nat.mul_le_mul_right _ h1
    have hchge : 2 ^ i ≤ cellCount cfg.padding (2 ^ i) t.height * 2 ^ i := by
      have h1 : 1 ≤ cellCount cfg.padding (2 ^ i) t.height :=
        cellCount_pos hgpos (by have := (hpos t htm).2; omega)
      calc (2:Nat) ^ i = 1 * 2 ^ i := (Nat.one_mul _).symm
        _ ≤ _ := Nat.mul_le_mul_right _ h1
    have hstep2 : (if 0 + cellCount cfg.padding (2 ^ i) t.width * 2 ^ i > cfg.maxSize then
        (if 0 + 0 + cellCount cfg.padding (2 ^ i) t.height * 2 ^ i > cfg.maxSize then none
         else some (gridPlace cfg (2 ^ i) ⟨[], 0, 0, 0, 0, 0⟩ t 0 (0 + 0) 0))
        else some (gridPlace cfg (2 ^ i) ⟨[], 0, 0, 0, 0, 0⟩ t 0 0 0)) = some st2 := hstep
    have hglemax : 2 ^ i ≤ cfg.maxSize := by
      by_cases hwrap : 0 + cellCount cfg.padding (2 ^ i) t.width * 2 ^ i > cfg.maxSize
      · rw [if_pos hwrap] at hstep2
        by_cases hover : 0 + 0 + cellCount cfg.padding (2 ^ i) t.height * 2 ^ i > cfg.maxSize
        · rw [if_pos hover] at hstep2; cases hstep2
        · omega
      · omega
    have him : i ≤ m := by
      have h2 : (2:Nat) ^ i ≤ 2 ^ m := by rw [← hm]; exact hglemax
      exact (Nat.pow_le_pow_iff_right (by omega)).mp h2
    obtain ⟨p0, hp0, hsp0⟩ :=
      exists_placement inv.data (gridSorted_perm cfg sprites) hne
    obtain ⟨hgw, hgh⟩ := gridInv_g_le hgpos inv hp0
      (by have h1 : 0 < p0.width := (hpos _ hsp0).1; omega)
      (by have h1 : 0 < p0.height := (hpos _ hsp0).2; omega)
    have hgaw : 2 ^ i ≤ (st.maxWidth + 2 ^ i - 1) / 2 ^ i * 2 ^ i :=
      le_trans hgw (le_ceil_mul hgpos _)
    have hgah : 2 ^ i ≤ (st.maxHeight + 2 ^ i - 1) / 2 ^ i * 2 ^ i :=
      le_trans hgh (le_ceil_mul hgpos _)
    obtain ⟨k, hk⟩ := nextPowerOf2_pow
      (n := (st.maxWidth + 2 ^ i - 1) / 2 ^ i * 2 ^ i) (by omega)
    obtain ⟨k2, hk2⟩ := nextPowerOf2_pow
      (n := (st.maxHeight + 2 ^ i - 1) / 2 ^ i * 2 ^ i) (by omega)
    have hik : i ≤ k := by
      have h2 : (2:Nat) ^ i ≤ 2 ^ k := by
        rw [← hk]
        exact le_trans hgaw (le_nextPowerOf2 _)
      exact (Nat.pow_le_pow_iff_right (by omega)).mp h2
    have hik2 : i ≤ k2 := by
      have h2 : (2:Nat) ^ i ≤ 2 ^ k2 := by
        rw [← hk2]
        exact le_trans hgah (le_nextPowerOf2 _)
      exact (Nat.pow_le_pow_iff_right (by omega)).mp h2
    constructor
    · rw [hw, hk, hm]
      exact pow_dvd_min hik him
    · rw [hh, hk2, hm]
      exact pow_dvd_min hik2 him

/-- Witness for the amended C4 at a concrete input: a 20 by 20 sprite on
a 32 pixel grid gives a 32 by 32 canvas, a multiple of 32. -/
theorem pack_grid_multiple_amended_witness :
    (pack ⟨2, 2048, some 32, false⟩ [(⟨"a", 20, 20, ()⟩ : SpriteInfo Unit)] =
      some ⟨[⟨"a", 20, 20, (), 6, 6, some ⟨0, 0, 1, 1⟩⟩], 32, 32⟩) ∧
    (32:Nat) ∣ 32 ∧ (32:Nat) ∣ 32 := by
  have h : pack ⟨2, 2048, some 32, false⟩ [(⟨"a", 20, 20, ()⟩ : SpriteInfo Unit)] =
      some ⟨[⟨"a", 20, 20, (), 6, 6, some ⟨0, 0, 1, 1⟩⟩], 32, 32⟩ := by decide
  exact ⟨h, pack_grid_multiple_amended rfl ⟨5, rfl⟩ ⟨11, rfl⟩ (by decide) h⟩

/-- C5: canFit returning true does not guarantee that pack succeeds.
With padding 0 and maxSize 100, two 60 by 60 sprites (positive
dimensions, each side ≤ maxSize) have total area 7200 ≤ 10000, so
canFit accepts them, yet packing wraps the second sprite to a new row
at y = 60 where 60 + 60 > 100 raises the capacity error. -/
theorem canFit_not_sufficient :
    canFit ⟨0, 100, none, false⟩
      [(⟨"a", 60, 60, ()⟩ : SpriteInfo Unit), ⟨"b", 60, 60, ()⟩] = true ∧
    pack ⟨0, 100, none, false⟩
      [(⟨"a", 60, 60, ()⟩ : SpriteInfo Unit), ⟨"b", 60, 60, ()⟩] = none ∧
    ([(⟨"a", 60, 60, ()⟩ : SpriteInfo Unit), ⟨"b", 60, 60, ()⟩].all
      (fun s => decide (0 < s.width) && decide (0 < s.height) &&
        decide (s.width ≤ 100) && decide (s.height ≤ 100))) = true :=
  ⟨by decide, by decide, by decide⟩

theorem calculateRequiredArea_eq_sum {α : Type} (cfg : PackerConfig)
    (sprites : List (SpriteInfo α)) :
    calculateRequiredArea cfg sprites =
      (sprites.map fun s => (s.width + cfg.padding) * (s.height + cfg.padding)).sum := by
  unfold calculateRequiredArea
  have haux : ∀ (l : List (SpriteInfo α)) (n : Nat),
      l.foldl (fun total sp =>
        total + (sp.width + cfg.padding) * (sp.height + cfg.padding)) n =
      n + (l.map fun s => (s.width + cfg.padding) * (s.height + cfg.padding)).sum := by
    intro l
    induction l with
    | nil => intro n; simp
    | cons s l ih =>
      intro n
      rw [List.foldl_cons, ih, List.map_cons, List.sum_cons]
      omega
  simpa using haux sprites 0

theorem canFit_false_iff {α : Type} (cfg : PackerConfig)
    (sprites : List (SpriteInfo α)) :
    canFit cfg sprites = false ↔
      (cfg.maxSize * cfg.maxSize < calculateRequiredArea cfg sprites ∨
       ∃ s ∈ sprites, cfg.maxSize < s.width ∨ cfg.maxSize < s.height) := by
  unfold canFit
  by_cases hA : calculateRequiredArea cfg sprites > cfg.maxSize * cfg.maxSize
  · rw [if_pos hA]
    simp only [eq_self_iff_true, true_iff]
    exact Or.inl hA
  · rw [if_neg hA]
    by_cases hB : sprites.any
        (fun sp => cfg.maxSize < sp.width || cfg.maxSize < sp.height)
    · rw [if_pos hB]
      simp only [eq_self_iff_true, true_iff]
      right
      obtain ⟨s, hs, hsp⟩ := List.any_eq_true.mp hB
      exact ⟨s, hs, by simpa using hsp⟩
    · rw [if_neg hB]
      constructor
      · intro hfalse
        exact absurd hfalse (by simp)
      · intro hor
        exfalso
        rcases hor with h1 | ⟨s, hs, h2⟩
        · omega
        · exact hB (List.any_eq_true.mpr ⟨s, hs, by simpa using h2⟩)

/-- C6: calculateRequiredArea sums (width + padding) times
(height + padding) over the sprites, canFit is false exactly when that
sum exceeds maxSize squared or some sprite side exceeds maxSize, and the
three concrete boundary examples of the spec evaluate as stated. -/
theorem calculateRequiredArea_canFit_spec :
    (∀ (α : Type) (cfg : PackerConfig) (sprites : List (SpriteInfo α)),
      calculateRequiredArea cfg sprites =
        (sprites.map fun s => (s.width + cfg.padding) * (s.height + cfg.padding)).sum) ∧
    (∀ (α : Type) (cfg : PackerConfig) (sprites : List (SpriteInfo α)),
      canFit cfg sprites = false ↔
        (cfg.maxSize * cfg.maxSize < calculateRequiredArea cfg sprites ∨
         ∃ s ∈ sprites, cfg.maxSize < s.width ∨ cfg.maxSize < s.height)) ∧
    calculateRequiredArea ⟨2, 2048, none, false⟩
      [(⟨"a", 64, 64, ()⟩ : SpriteInfo Unit), ⟨"b", 32, 32, ()⟩] = 5512 ∧
    canFit ⟨2, 2048, none, false⟩ [(⟨"big", 4096, 4096, ()⟩ : SpriteInfo Unit)] = false ∧
    canFit ⟨2, 2048, none, false⟩ [(⟨"ok", 64, 64, ()⟩ : SpriteInfo Unit)] = true :=
  ⟨fun _ cfg sprites => calculateRequiredArea_eq_sum cfg sprites,
   fun _ cfg sprites => canFit_false_iff cfg sprites,
   by decide, by decide, by decide⟩

/-- C7: in grid mode every emitted placement records gridCellsWide and
gridCellsHigh as the ceiling of (width + padding) / gridSize and of
(height + padding) / gridSize: the recorded cell span covers the padded
extent and overshoots it by less than one grid cell. -/
theorem pack_grid_cell_counts {α : Type} {cfg : PackerConfig} {g : Nat}
    {sprites : List (SpriteInfo α)} {r : PackResult α}
    (hgs : cfg.gridSize = some g) (hg0 : g ≠ 0)
    (h : pack cfg sprites = some r) :
    ∀ p ∈ r.placements, ∃ gi, p.grid = some gi ∧
      gi.gridCellsWide = cellCount cfg.padding g p.width ∧
      gi.gridCellsHigh = cellCount cfg.padding g p.height ∧
      p.width + cfg.padding ≤ gi.gridCellsWide * g ∧
      gi.gridCellsWide * g < p.width + cfg.padding + g ∧
      p.height + cfg.padding ≤ gi.gridCellsHigh * g ∧
      gi.gridCellsHigh * g < p.height + cfg.padding + g := by
  intro p hpm
  rcases pack_cases h with ⟨_, rfl⟩ | ⟨hne, ⟨hmode, hrow⟩ | ⟨g2, hgs2, hg2z, hgrid⟩⟩
  · exact absurd hpm (by simp)
  · rcases hmode with hm2 | hm2 <;> rw [hgs] at hm2
    · cases hm2
    · exact absurd (Option.some.inj hm2) hg0
  · rw [hgs] at hgs2
    obtain rfl := Option.some.inj hgs2
    have hgpos : 0 < g := Nat.pos_of_ne_zero hg0
    obtain ⟨st, _, inv, hpeq, _, _⟩ := packFixedGrid_some hgpos hgrid
    rw [hpeq] at hpm
    obtain ⟨gi, hgi, hcw, hch, _, _, _, _⟩ := inv.cells p hpm
    refine ⟨gi, hgi, hcw, hch, ?_, ?_, ?_, ?_⟩
    · rw [hcw]; exact le_cellCount_mul hgpos _ _
    · rw [hcw]; exact cellCount_mul_lt hgpos _ _
    · rw [hch]; exact le_cellCount_mul hgpos _ _
    · rw [hch]; exact cellCount_mul_lt hgpos _ _

/-- Witness for C7 at the two concrete spec examples: a 20 by 20 sprite
with padding 2 on a 32 pixel grid occupies 1 by 1 cells, a 50 by 50
sprite occupies 2 by 2 cells. -/
theorem pack_grid_cell_counts_witness :
    cellCount 2 32 20 = 1 ∧ cellCount 2 32 50 = 2 ∧
    (∃ gi, (⟨"a", 20, 20, (), 6, 6, some ⟨0, 0, 1, 1⟩⟩ : SpritePlacement Unit).grid = some gi ∧
      gi.gridCellsWide = cellCount 2 32 20 ∧ gi.gridCellsHigh = cellCount 2 32 20) ∧
    (∃ gi, (⟨"b", 50, 50, (), 7, 7, some ⟨0, 0, 2, 2⟩⟩ : SpritePlacement Unit).grid = some gi ∧
      gi.gridCellsWide = cellCount 2 32 50 ∧ gi.gridCellsHigh = cellCount 2 32 50) := by
  refine ⟨by decide, by decide, ?_, ?_⟩
  · have h : pack ⟨2, 2048, some 32, false⟩ [(⟨"a", 20, 20, ()⟩ : SpriteInfo Unit)] =
        some ⟨[⟨"a", 20, 20, (), 6, 6, some ⟨0, 0, 1, 1⟩⟩], 32, 32⟩ := by decide
    obtain ⟨gi, hgi, hcw, hch, _⟩ :=
      pack_grid_cell_counts rfl (by decide) h
        ⟨"a", 20, 20, (), 6, 6, some ⟨0, 0, 1, 1⟩⟩ (by decide)
    exact ⟨gi, hgi, hcw, hch⟩
  · have h : pack ⟨2, 2048, some 32, false⟩ [(⟨"b", 50, 50, ()⟩ : SpriteInfo Unit)] =
        some ⟨[⟨"b", 50, 50, (), 7, 7, some ⟨0, 0, 2, 2⟩⟩], 64, 64⟩ := by decide
    obtain ⟨gi, hgi, hcw, hch, _⟩ :=
      pack_grid_cell_counts rfl (by decide) h
        ⟨"b", 50, 50, (), 7, 7, some ⟨0, 0, 2, 2⟩⟩ (by decide)
    exact ⟨gi, hgi, hcw, hch⟩

/-! Lemmas about the manifest reordering. -/

/-- When sprite keys are pairwise distinct, the last-wins Map lookup
agrees with first find. -/
theorem lookupSprite_eq_find {α : Type} {sprites : List (SpriteInfo α)}
    (hkeys : (sprites.map (fun s => s.key)).Nodup) (k : String) :
    lookupSprite sprites k = sprites.find? (fun s => s.key == k) := by
  induction sprites with
  | nil => rfl
  | cons s l ih =>
    have hk : s.key ∉ l.map (fun t => t.key) := (List.nodup_cons.mp hkeys).1
    have hnd : (l.map (fun t => t.key)).Nodup := (List.nodup_cons.mp hkeys).2
    unfold lookupSprite
    rw [List.reverse_cons, List.find?_append]
    by_cases hsk : (s.key == k) = true
    · have hkey : s.key = k := by simpa using hsk
      have hnone : l.reverse.find? (fun t => t.key == k) = none := by
        apply List.find?_eq_none.mpr
        intro t ht hteq
        apply hk
        have h2 : t.key = k := by simpa using hteq
        rw [hkey, ← h2]
        exact List.mem_map_of_mem _ (List.mem_reverse.mp ht)
      rw [hnone, Option.none_or]
      simp only [List.find?, hsk]
    · have hskf : (s.key == k) = false := by simpa using hsk
      simp only [List.find?, hskf, Option.or_none]
      exact ih hnd

/-- With pairwise-distinct keys, finding a member sprite by its own key
returns that sprite. -/
theorem find?_key_of_mem {α : Type} {sprites : List (SpriteInfo α)}
    (hkeys : (sprites.map (fun s => s.key)).Nodup)
    {s : SpriteInfo α} (hs : s ∈ sprites) :
    sprites.find? (fun t => t.key == s.key) = some s := by
  induction sprites with
  | nil => cases hs
  | cons a l ih =>
    rcases List.mem_cons.mp hs with rfl | hs2
    · exact List.find?_cons_of_pos _ (by simp)
    · have hk : a.key ∉ l.map (fun t => t.key) := (List.nodup_cons.mp hkeys).1
      have hnd : (l.map (fun t => t.key)).Nodup := (List.nodup_cons.mp hkeys).2
      have hne : (a.key == s.key) = false := by
        simp only [beq_eq_false_iff_ne, ne_eq]
        intro heq
        apply hk
        rw [heq]
        exact List.mem_map_of_mem _ hs2
      simp only [List.find?, hne]
      exact ih hnd hs2

theorem filterMap_lookup_eq {α : Type} (sprites : List (SpriteInfo α)) :
    ∀ l : List (SpriteInfo α),
      (∀ s ∈ l, lookupSprite sprites s.key = some s) →
      (l.map (fun s => s.key)).filterMap (lookupSprite sprites) = l := by
  intro l
  induction l with
  | nil => intro _; rfl
  | cons s l ih =>
    intro hl
    rw [List.map_cons, List.filterMap_cons, hl s (List.mem_cons_self s l)]
    rw [ih fun t ht => hl t (List.mem_cons_of_mem s ht)]

/-- The keys of the manifest part are the found subset of the manifest
keys, in manifest order. -/
theorem map_key_filterMap_find {α : Type} (sprites : List (SpriteInfo α)) :
    ∀ order : List String,
      (order.filterMap (fun k => sprites.find? (fun s => s.key == k))).map
          (fun p => p.key) =
        order.filter (fun k => (sprites.find? (fun s => s.key == k)).isSome) := by
  intro order
  induction order with
  | nil => rfl
  | cons k l ih =>
    rw [List.filterMap_cons, List.filter_cons]
    cases hf : sprites.find? (fun s => s.key == k) with
    | none => simpa using ih
    | some s =>
      have hk : s.key = k := by
        have := List.find?_some hf
        simpa using this
      simp only [Option.isSome_some, if_pos]
      rw [List.map_cons, ih, hk]

/-- C8 fails as stated for manifests with a duplicated key: reordering
the single sprite a against the manifest order [a, a] emits the sprite
twice, while the claim describes an output that lists each current
sprite named by the manifest once, hence [a]. -/
theorem reorder_duplicate_counterexample :
    reorderSpritesFromManifest [(⟨"a", 1, 1, ()⟩ : SpriteInfo Unit)]
        (some ["a", "a"]) = [⟨"a", 1, 1, ()⟩, ⟨"a", 1, 1, ()⟩] ∧
    reorderSpritesFromManifest [(⟨"a", 1, 1, ()⟩ : SpriteInfo Unit)]
        (some ["a", "a"]) ≠ [⟨"a", 1, 1, ()⟩] :=
  ⟨by decide, by decide⟩

/-- C8 amended: for sprite lists with pairwise-distinct keys and
manifests whose spriteOrder has no duplicate entries, the reordering is
exactly the sprites found by the manifest keys, once each, in manifest
order, followed by the sprites whose keys are not in the manifest
sorted ascending by key; manifest keys without a current sprite are
dropped silently. -/
theorem reorder_from_manifest_amended {α : Type}
    {sprites : List (SpriteInfo α)} {order : List String}
    (hkeys : (sprites.map (fun s => s.key)).Nodup)
    (horder : order.Nodup) :
    reorderSpritesFromManifest sprites (some order) =
      order.filterMap (fun k => sprites.find? (fun s => s.key == k)) ++
        sortByKey (sprites.filter (fun s => !(order.contains s.key))) ∧
    ((order.filterMap (fun k => sprites.find? (fun s => s.key == k))).map
      (fun p => p.key)).Nodup := by
  constructor
  · have hred : reorderSpritesFromManifest sprites (some order) =
        (if order.isEmpty = true then sortByKey sprites
         else order.filterMap (lookupSprite sprites) ++
           sortByKey ((((sprites.map (fun s => s.key)).dedup).filter
             (fun k => !(order.contains k))).filterMap (lookupSprite sprites))) := rfl
    rw [hred]
    by_cases ho : order.isEmpty = true
    · rw [if_pos ho]
      have hord : order = [] := List.isEmpty_iff.mp ho
      subst hord
      have hfil : sprites.filter (fun s => !(List.contains [] s.key)) = sprites := by
        have : ∀ s : SpriteInfo α, (!(List.contains [] s.key)) = true := by
          intro s; rfl
        simp [List.filter_eq_self.mpr fun s _ => this s]
      rw [hfil]
      rfl
    · rw [if_neg ho]
      have hlk : lookupSprite sprites = fun k => sprites.find? (fun s => s.key == k) :=
        funext (lookupSprite_eq_find hkeys)
      have hdd : (sprites.map (fun s => s.key)).dedup = sprites.map (fun s => s.key) :=
        List.Nodup.dedup hkeys
      rw [hdd, List.filter_map]
      have hlook : ∀ s ∈ sprites.filter
          ((fun k => !(order.contains k)) ∘ fun s => s.key),
          lookupSprite sprites s.key = some s := by
        intro s hsf
        rw [hlk]
        exact find?_key_of_mem hkeys (List.mem_of_mem_filter hsf)
      rw [filterMap_lookup_eq sprites _ hlook, hlk]
      rfl
  · rw [map_key_filterMap_find]
    exact List.Nodup.filter _ horder

/-- Witness for the amended C8 at the two concrete spec examples:
manifest order [a, b, c] against current sprites {a, b, c, d} yields
[a, b, c, d]; against {a, c} (b removed) yields [a, c]. -/
theorem reorder_from_manifest_amended_witness :
    reorderSpritesFromManifest
      [(⟨"a", 1, 1, ()⟩ : SpriteInfo Unit), ⟨"b", 1, 1, ()⟩,
        ⟨"c", 1, 1, ()⟩, ⟨"d", 1, 1, ()⟩]
      (some ["a", "b", "c"]) =
      [⟨"a", 1, 1, ()⟩, ⟨"b", 1, 1, ()⟩, ⟨"c", 1, 1, ()⟩, ⟨"d", 1, 1, ()⟩] ∧
    reorderSpritesFromManifest
      [(⟨"a", 1, 1, ()⟩ : SpriteInfo Unit), ⟨"c", 1, 1, ()⟩]
      (some ["a", "b", "c"]) = [⟨"a", 1, 1, ()⟩, ⟨"c", 1, 1, ()⟩] := by
  constructor
  · exact ((reorder_from_manifest_amended (by decide) (by decide)).1).trans (by decide)
  · exact ((reorder_from_manifest_amended (by decide) (by decide)).1).trans (by decide)

/-- C10: in row mode the capacity error is only checked when wrapping to
a new row, so a single sprite whose padded width fits horizontally
(padding + width + padding ≤ maxSize) is always placed at
(padding, padding) and pack succeeds for every height, even one whose
padded extent exceeds maxSize; the height only reaches the result
through the clamped power-of-two rounding. -/
theorem pack_single_sprite_row {α : Type} (pad maxS : Nat) (k : String)
    (w hgt : Nat) (payload : α)
    (hw : pad + (w + pad) ≤ maxS) :
    pack ⟨pad, maxS, none, false⟩ [⟨k, w, hgt, payload⟩] =
      some ⟨[⟨k, w, hgt, payload, pad, pad, none⟩],
        min (nextPowerOf2 (pad + w + pad)) maxS,
        min (nextPowerOf2 (pad + hgt + pad)) maxS⟩ := by
  have hstep : rowStep (⟨pad, maxS, none, false⟩ : PackerConfig)
      ⟨[], pad, pad, 0, 0, 0⟩ ⟨k, w, hgt, payload⟩ =
      some ⟨[⟨k, w, hgt, payload, pad, pad, none⟩],
        pad + (w + pad), pad, max 0 (hgt + pad),
        max 0 (pad + w + pad), max 0 (pad + hgt + pad)⟩ := by
    unfold rowStep
    rw [if_neg (show ¬ (pad + (w + pad) > maxS) by omega)]
    rfl
  have hsort : rowSorted (⟨pad, maxS, none, false⟩ : PackerConfig)
      [(⟨k, w, hgt, payload⟩ : SpriteInfo α)] = [⟨k, w, hgt, payload⟩] := rfl
  have hloop : packLoop (rowStep (⟨pad, maxS, none, false⟩ : PackerConfig))
      ⟨[], pad, pad, 0, 0, 0⟩ [(⟨k, w, hgt, payload⟩ : SpriteInfo α)] =
      some ⟨[⟨k, w, hgt, payload, pad, pad, none⟩],
        pad + (w + pad), pad, max 0 (hgt + pad),
        max 0 (pad + w + pad), max 0 (pad + hgt + pad)⟩ := by
    unfold packLoop
    rw [hstep]
    rfl
  unfold pack
  rw [if_neg (show ¬ (([(⟨k, w, hgt, payload⟩ : SpriteInfo α)]).isEmpty = true) by simp)]
  show packRowBased ⟨pad, maxS, none, false⟩ [⟨k, w, hgt, payload⟩] = _
  unfold packRowBased
  rw [hsort, hloop]
  simp only [Nat.zero_max]

/-- Witness for C10 at a concrete input: a 4 by 100 sprite with padding
2 and maxSize 16 packs successfully at (2, 2) although its padded
height 104 far exceeds maxSize; the returned height clamps to 16. -/
theorem pack_single_sprite_row_witness :
    pack ⟨2, 16, none, false⟩ [(⟨"t", 4, 100, ()⟩ : SpriteInfo Unit)] =
      some ⟨[⟨"t", 4, 100, (), 2, 2, none⟩], 8, 16⟩ ∧ 16 < 2 + 100 + 2 := by
  constructor
  · exact (pack_single_sprite_row 2 16 "t" 4 100 () (by omega)).trans (by decide)
  · decide

end SpriteAtlas
